import Mathlib

/-
Verification of the Field Hockey Scoreboard simulator (main.cpp).

Shallow embedding of the core match logic: the `Team`, `MatchEvent` and
`HockeyMatch` classes with their action methods, translated to pure Lean
functions with explicit state passing. C++ `int` counters are modelled as
`Nat`: every counter starts at 0 and is only ever incremented (no decrement
exists in the source), and the current-quarter field starts at 1 and is only
ever incremented while below `TOTAL_QUARTERS`, so no value of these fields is
ever negative and overflow is immaterial for the verified properties.
-/

namespace FieldHockey

/-- The card kinds, from `enum class CardType : unsigned char
\x7b Green = 0, Yellow = 1, Red = 2, Count \x7d`. `Count` is the
out-of-range sentinel enumerator. -/
inductive CardType : Type where
  | Green : CardType
  | Yellow : CardType
  | Red : CardType
  | Count : CardType
deriving DecidableEq

/-- `constexpr std::string_view cardName(CardType)`: the exhaustive switch;
falls through to "Unknown" for `Count`. -/
def cardName : CardType → String
  | CardType.Green => "Green"
  | CardType.Yellow => "Yellow"
  | CardType.Red => "Red"
  | CardType.Count => "Unknown"

/-- `constexpr int TOTAL_QUARTERS = 4;` -/
def TOTAL_QUARTERS : Nat := 4

/-- The `Team` class: name plus five counters, all zero-initialised in the
class body. -/
structure Team where
  name_ : String
  goals_ : Nat
  green_ : Nat
  yellow_ : Nat
  red_ : Nat
  penalty_corners_ : Nat
deriving DecidableEq

/-- `explicit Team(std::string name)`: stores the name, counters start
at their in-class initialisers (all 0). -/
def mkTeam (name : String) : Team :=
  ⟨name, 0, 0, 0, 0, 0⟩

/-- `const std::string& name() const` -/
def Team.name (t : Team) : String := t.name_

/-- `int goals() const` -/
def Team.goals (t : Team) : Nat := t.goals_

/-- `int penaltyCorners() const` -/
def Team.penaltyCorners (t : Team) : Nat := t.penalty_corners_

/-- `int greenCards() const` -/
def Team.greenCards (t : Team) : Nat := t.green_

/-- `int yellowCards() const` -/
def Team.yellowCards (t : Team) : Nat := t.yellow_

/-- `int redCards() const` -/
def Team.redCards (t : Team) : Nat := t.red_

/-- `void scoreGoal() noexcept \x7b ++goals_; \x7d` -/
def Team.scoreGoal (t : Team) : Team :=
  ⟨t.name_, t.goals_ + 1, t.green_, t.yellow_, t.red_, t.penalty_corners_⟩

/-- `void awardPenaltyCorner() noexcept \x7b ++penalty_corners_; \x7d` -/
def Team.awardPenaltyCorner (t : Team) : Team :=
  ⟨t.name_, t.goals_, t.green_, t.yellow_, t.red_, t.penalty_corners_ + 1⟩

/-- `void receiveCard(CardType type) noexcept`: exhaustive switch; the
`Count` case is a bare `break;`, so an out-of-range kind changes nothing and
the (noexcept) call returns normally. -/
def Team.receiveCard (t : Team) : CardType → Team
  | CardType.Green => ⟨t.name_, t.goals_, t.green_ + 1, t.yellow_, t.red_, t.penalty_corners_⟩
  | CardType.Yellow => ⟨t.name_, t.goals_, t.green_, t.yellow_ + 1, t.red_, t.penalty_corners_⟩
  | CardType.Red => ⟨t.name_, t.goals_, t.green_, t.yellow_, t.red_ + 1, t.penalty_corners_⟩
  | CardType.Count => t

/-- `std::string statsLine() const`: streams green, yellow, red,
penalty-corner counts with the fixed suffix tokens. -/
def Team.statsLine (t : Team) : String :=
  toString t.green_ ++ "G " ++ toString t.yellow_ ++ "Y " ++
    toString t.red_ ++ "R " ++ toString t.penalty_corners_ ++ "PC"

/-- Selector used in statements only: the card counter of a `Team` matching a
given kind (0 for the sentinel `Count`, which has no counter). -/
def cardCountOf (t : Team) : CardType → Nat
  | CardType.Green => t.green_
  | CardType.Yellow => t.yellow_
  | CardType.Red => t.red_
  | CardType.Count => 0

/-- The `MatchEvent` class: a quarter number and a free-text description,
both set by the constructor; the class exposes no mutating member. -/
structure MatchEvent where
  quarter_ : Nat
  description_ : String
deriving DecidableEq

/-- `std::string toString() const`: renders `"Q" << quarter_ << " - " <<
description_`. -/
def MatchEvent.toString (e : MatchEvent) : String :=
  "Q" ++ ToString.toString e.quarter_ ++ " - " ++ e.description_

/-- The `HockeyMatch` class state: two owned teams, the current quarter
(in-class initialiser 1) and the chronological event log. -/
structure HockeyMatch where
  home_team_ : Team
  away_team_ : Team
  current_quarter_ : Nat
  event_log_ : List MatchEvent
deriving DecidableEq

/-- `void addEvent(const std::string&)`: `event_log_.emplace_back(
current_quarter_, event_description)`. -/
def HockeyMatch.addEvent (m : HockeyMatch) (event_description : String) : HockeyMatch :=
  ⟨m.home_team_, m.away_team_, m.current_quarter_,
    m.event_log_ ++ [⟨m.current_quarter_, event_description⟩]⟩

/-- `HockeyMatch(std::string home_name, std::string away_name)`: constructs
both teams and logs the start-of-Q1 marker. -/
def mkHockeyMatch (home_name away_name : String) : HockeyMatch :=
  HockeyMatch.addEvent ⟨mkTeam home_name, mkTeam away_name, 1, []⟩ "=== Start of Q1 ==="

/-- The two sides of a match; the C++ code reaches a side's `Team` through a
`Team&` reference to `home_team_` or `away_team_`. -/
inductive Side : Type where
  | home : Side
  | away : Side
deriving DecidableEq

/-- Which team a `Team&` argument of the private helpers refers to. -/
def HockeyMatch.teamOf (m : HockeyMatch) : Side → Team
  | Side.home => m.home_team_
  | Side.away => m.away_team_

/-- Writing back through the `Team&` reference. -/
def HockeyMatch.setTeam (m : HockeyMatch) : Side → Team → HockeyMatch
  | Side.home, t => ⟨t, m.away_team_, m.current_quarter_, m.event_log_⟩
  | Side.away, t => ⟨m.home_team_, t, m.current_quarter_, m.event_log_⟩

/-- `const Team& home() const` -/
def HockeyMatch.home (m : HockeyMatch) : Team := m.home_team_

/-- `const Team& away() const` -/
def HockeyMatch.away (m : HockeyMatch) : Team := m.away_team_

/-- `int quarter() const` -/
def HockeyMatch.quarter (m : HockeyMatch) : Nat := m.current_quarter_

/-- `const std::vector<MatchEvent>& events() const` -/
def HockeyMatch.events (m : HockeyMatch) : List MatchEvent := m.event_log_

/-- `void scoreGoalFor(Team& team, const std::string& scorer = \x7b\x7d)`:
bumps the goal counter, then logs either `"<name> goal!"` or
`"<name> goal! (<scorer>)"`. -/
def HockeyMatch.scoreGoalFor (m : HockeyMatch) (s : Side) (scorer : String) : HockeyMatch :=
  let m1 := m.setTeam s ((m.teamOf s).scoreGoal)
  if scorer.isEmpty then
    m1.addEvent ((m.teamOf s).name ++ " goal!")
  else
    m1.addEvent ((m.teamOf s).name ++ " goal! (" ++ scorer ++ ")")

/-- `void showCardFor(Team& team, CardType type)` -/
def HockeyMatch.showCardFor (m : HockeyMatch) (s : Side) (type : CardType) : HockeyMatch :=
  (m.setTeam s ((m.teamOf s).receiveCard type)).addEvent
    (cardName type ++ " card - " ++ (m.teamOf s).name)

/-- `void awardPenaltyCornerFor(Team& team)` -/
def HockeyMatch.awardPenaltyCornerFor (m : HockeyMatch) (s : Side) : HockeyMatch :=
  (m.setTeam s ((m.teamOf s).awardPenaltyCorner)).addEvent
    ("Penalty corner - " ++ (m.teamOf s).name)

/-- `void goalForHome()` -/
def HockeyMatch.goalForHome (m : HockeyMatch) : HockeyMatch :=
  m.scoreGoalFor Side.home ""

/-- `void goalForAway()` -/
def HockeyMatch.goalForAway (m : HockeyMatch) : HockeyMatch :=
  m.scoreGoalFor Side.away ""

/-- `void cardForHome(CardType type)` -/
def HockeyMatch.cardForHome (m : HockeyMatch) (type : CardType) : HockeyMatch :=
  m.showCardFor Side.home type

/-- `void cardForAway(CardType type)` -/
def HockeyMatch.cardForAway (m : HockeyMatch) (type : CardType) : HockeyMatch :=
  m.showCardFor Side.away type

/-- `void penaltyCornerForHome()` -/
def HockeyMatch.penaltyCornerForHome (m : HockeyMatch) : HockeyMatch :=
  m.awardPenaltyCornerFor Side.home

/-- `void penaltyCornerForAway()` -/
def HockeyMatch.penaltyCornerForAway (m : HockeyMatch) : HockeyMatch :=
  m.awardPenaltyCornerFor Side.away

/-- `bool nextQuarter()`: guard on `current_quarter_ > TOTAL_QUARTERS`, then
log the end-of-quarter marker, then either advance and log the start marker
(returning true) or signal match over (returning false). The returned pair is
(state after the call, returned bool). -/
def HockeyMatch.nextQuarter (m : HockeyMatch) : HockeyMatch × Bool :=
  if TOTAL_QUARTERS < m.current_quarter_ then
    (m, false)
  else
    let m1 := m.addEvent ("=== End of Q" ++ toString m.current_quarter_ ++ " ===")
    if m1.current_quarter_ < TOTAL_QUARTERS then
      let m2 : HockeyMatch :=
        ⟨m1.home_team_, m1.away_team_, m1.current_quarter_ + 1, m1.event_log_⟩
      (m2.addEvent ("=== Start of Q" ++ toString m2.current_quarter_ ++ " ==="), true)
    else
      (m1, false)

/-- Dispatch on side for card actions: `cardForHome` / `cardForAway`. -/
def HockeyMatch.cardFor (m : HockeyMatch) : Side → CardType → HockeyMatch
  | Side.home, type => m.cardForHome type
  | Side.away, type => m.cardForAway type

/-- Dispatch on side for goal actions: `goalForHome` / `goalForAway`. -/
def HockeyMatch.goalFor (m : HockeyMatch) : Side → HockeyMatch
  | Side.home => m.goalForHome
  | Side.away => m.goalForAway

/-- Dispatch on side for penalty-corner actions: `penaltyCornerForHome` /
`penaltyCornerForAway`. -/
def HockeyMatch.penaltyCornerFor (m : HockeyMatch) : Side → HockeyMatch
  | Side.home => m.penaltyCornerForHome
  | Side.away => m.penaltyCornerForAway

/-- The public game actions of `HockeyMatch` that mutate state, as invoked by
the command loop. -/
inductive Action : Type where
  | goalHome : Action
  | goalAway : Action
  | cardHome : CardType → Action
  | cardAway : CardType → Action
  | pcHome : Action
  | pcAway : Action
  | nextQ : Action
deriving DecidableEq

/-- One public action applied to the match state (`nextQuarter` keeps the
mutated state, its bool return is read separately). -/
def HockeyMatch.applyAction (m : HockeyMatch) : Action → HockeyMatch
  | Action.goalHome => m.goalForHome
  | Action.goalAway => m.goalForAway
  | Action.cardHome type => m.cardForHome type
  | Action.cardAway type => m.cardForAway type
  | Action.pcHome => m.penaltyCornerForHome
  | Action.pcAway => m.penaltyCornerForAway
  | Action.nextQ => m.nextQuarter.1

/-- A sequence of public actions applied left to right. -/
def HockeyMatch.run (m : HockeyMatch) : List Action → HockeyMatch
  | [] => m
  | a :: rest => (m.applyAction a).run rest

/-- `nextQuarter` iterated n times (each call on the state the previous call
left behind). -/
def iterNextQuarter (m : HockeyMatch) : Nat → HockeyMatch
  | 0 => m
  | n + 1 => (iterNextQuarter m n).nextQuarter.1

/-- `goalFor` one fixed side iterated n times. -/
def iterGoal (m : HockeyMatch) (s : Side) : Nat → HockeyMatch
  | 0 => m
  | n + 1 => (iterGoal m s n).goalFor s

/-- The other side. -/
def otherSide : Side → Side
  | Side.home => Side.away
  | Side.away => Side.home

/-- Pointwise order on the five counters of a team (name ignored). -/
def countersLe (t1 t2 : Team) : Prop :=
  t1.goals_ ≤ t2.goals_ ∧ t1.green_ ≤ t2.green_ ∧ t1.yellow_ ≤ t2.yellow_ ∧
    t1.red_ ≤ t2.red_ ∧ t1.penalty_corners_ ≤ t2.penalty_corners_

/-- Spec-side rendering of the `receiveCard` contract, for comparison with
the source: per the spec, a kind outside the closed set Green, Yellow, Red is
an invalid-argument fault (modelled as `none`); a valid kind increments the
matching counter. -/
def receiveCardSpec (t : Team) : CardType → Option Team
  | CardType.Green =>
      some ⟨t.name_, t.goals_, t.green_ + 1, t.yellow_, t.red_, t.penalty_corners_⟩
  | CardType.Yellow =>
      some ⟨t.name_, t.goals_, t.green_, t.yellow_ + 1, t.red_, t.penalty_corners_⟩
  | CardType.Red =>
      some ⟨t.name_, t.goals_, t.green_, t.yellow_, t.red_ + 1, t.penalty_corners_⟩
  | CardType.Count => none

/-! Helper lemmas about the individual actions. -/

theorem goalFor_eq (m : HockeyMatch) (s : Side) :
    m.goalFor s = (m.setTeam s ((m.teamOf s).scoreGoal)).addEvent
      ((m.teamOf s).name_ ++ " goal!") := by
  cases s <;> rfl

theorem cardFor_eq (m : HockeyMatch) (s : Side) (ty : CardType) :
    m.cardFor s ty = (m.setTeam s ((m.teamOf s).receiveCard ty)).addEvent
      (cardName ty ++ " card - " ++ (m.teamOf s).name_) := by
  cases s <;> rfl

theorem penaltyCornerFor_eq (m : HockeyMatch) (s : Side) :
    m.penaltyCornerFor s = (m.setTeam s ((m.teamOf s).awardPenaltyCorner)).addEvent
      ("Penalty corner - " ++ (m.teamOf s).name_) := by
  cases s <;> rfl

theorem teamOf_setTeam_same (m : HockeyMatch) (s : Side) (t : Team) :
    (m.setTeam s t).teamOf s = t := by
  cases s <;> rfl

theorem teamOf_setTeam_other (m : HockeyMatch) (s : Side) (t : Team) :
    (m.setTeam s t).teamOf (otherSide s) = m.teamOf (otherSide s) := by
  cases s <;> rfl

theorem nextQuarter_of_lt (m : HockeyMatch) (h : m.current_quarter_ < TOTAL_QUARTERS) :
    m.nextQuarter = (⟨m.home_team_, m.away_team_, m.current_quarter_ + 1,
      m.event_log_ ++
        [⟨m.current_quarter_, "=== End of Q" ++ toString m.current_quarter_ ++ " ==="⟩,
         ⟨m.current_quarter_ + 1,
           "=== Start of Q" ++ toString (m.current_quarter_ + 1) ++ " ==="⟩]⟩, true) := by
  have hlt : m.current_quarter_ < 4 := h
  have hng : ¬ (4 < m.current_quarter_) := by omega
  simp [HockeyMatch.nextQuarter, HockeyMatch.addEvent, TOTAL_QUARTERS, hng, hlt]

theorem nextQuarter_of_eq4 (m : HockeyMatch) (h : m.current_quarter_ = 4) :
    m.nextQuarter = (⟨m.home_team_, m.away_team_, 4,
      m.event_log_ ++ [⟨4, "=== End of Q4 ==="⟩]⟩, false) := by
  simp [HockeyMatch.nextQuarter, HockeyMatch.addEvent, TOTAL_QUARTERS, h]
  rfl

theorem nextQuarter_of_gt (m : HockeyMatch) (h : TOTAL_QUARTERS < m.current_quarter_) :
    m.nextQuarter = (m, false) := by
  simp [HockeyMatch.nextQuarter, h]

theorem teams_nextQuarter (m : HockeyMatch) :
    (m.nextQuarter.1).home_team_ = m.home_team_ ∧
      (m.nextQuarter.1).away_team_ = m.away_team_ := by
  by_cases hgt : TOTAL_QUARTERS < m.current_quarter_
  · rw [nextQuarter_of_gt m hgt]
    exact ⟨rfl, rfl⟩
  · by_cases hlt : m.current_quarter_ < TOTAL_QUARTERS
    · rw [nextQuarter_of_lt m hlt]
      exact ⟨rfl, rfl⟩
    · have h4 : m.current_quarter_ = 4 := by
        simp [TOTAL_QUARTERS] at hgt hlt
        omega
      rw [nextQuarter_of_eq4 m h4]
      exact ⟨rfl, rfl⟩

theorem quarter_nextQuarter (m : HockeyMatch) :
    (m.nextQuarter.1).current_quarter_ =
      if m.current_quarter_ < TOTAL_QUARTERS then m.current_quarter_ + 1
      else m.current_quarter_ := by
  by_cases hgt : TOTAL_QUARTERS < m.current_quarter_
  · rw [nextQuarter_of_gt m hgt]
    rw [if_neg (by omega)]
  · have hle : m.current_quarter_ ≤ TOTAL_QUARTERS := Nat.not_lt.mp hgt
    by_cases hlt : m.current_quarter_ < TOTAL_QUARTERS
    · rw [nextQuarter_of_lt m hlt, if_pos hlt]
    · have h4 : m.current_quarter_ = 4 := by
        simp [TOTAL_QUARTERS] at hgt hlt
        omega
      rw [nextQuarter_of_eq4 m h4, if_neg hlt]
      exact h4.symm

theorem snd_nextQuarter (m : HockeyMatch) :
    m.nextQuarter.2 = true ↔ m.current_quarter_ < TOTAL_QUARTERS := by
  by_cases hgt : TOTAL_QUARTERS < m.current_quarter_
  · rw [nextQuarter_of_gt m hgt]
    simp
    omega
  · by_cases hlt : m.current_quarter_ < TOTAL_QUARTERS
    · rw [nextQuarter_of_lt m hlt]
      simp [hlt]
    · have h4 : m.current_quarter_ = 4 := by
        have h := Nat.not_lt.mp hgt
        simp [TOTAL_QUARTERS] at h hlt ⊢
        omega
      rw [nextQuarter_of_eq4 m h4]
      simp [hlt]

theorem quarter_applyAction_ne (m : HockeyMatch) (a : Action) (h : a ≠ Action.nextQ) :
    (m.applyAction a).current_quarter_ = m.current_quarter_ := by
  cases a <;> first
    | rfl
    | exact absurd rfl h

theorem quarter_applyAction_mono (m : HockeyMatch) (a : Action) :
    m.current_quarter_ ≤ (m.applyAction a).current_quarter_ := by
  by_cases h : a = Action.nextQ
  · subst h
    show m.current_quarter_ ≤ (m.nextQuarter.1).current_quarter_
    rw [quarter_nextQuarter]
    split <;> omega
  · rw [quarter_applyAction_ne m a h]

theorem quarter_applyAction_le4 (m : HockeyMatch) (a : Action)
    (h : m.current_quarter_ ≤ TOTAL_QUARTERS) :
    (m.applyAction a).current_quarter_ ≤ TOTAL_QUARTERS := by
  by_cases hq : a = Action.nextQ
  · subst hq
    show (m.nextQuarter.1).current_quarter_ ≤ TOTAL_QUARTERS
    rw [quarter_nextQuarter]
    split <;> omega
  · rw [quarter_applyAction_ne m a hq]
    exact h

theorem quarter_applyAction_ge1 (m : HockeyMatch) (a : Action)
    (h : 1 ≤ m.current_quarter_) :
    1 ≤ (m.applyAction a).current_quarter_ :=
  le_trans h (quarter_applyAction_mono m a)

theorem quarter_run_bounds (m : HockeyMatch) (acts : List Action)
    (h1 : 1 ≤ m.current_quarter_) (h4 : m.current_quarter_ ≤ TOTAL_QUARTERS) :
    1 ≤ (m.run acts).current_quarter_ ∧
      (m.run acts).current_quarter_ ≤ TOTAL_QUARTERS := by
  induction acts generalizing m with
  | nil => exact ⟨h1, h4⟩
  | cons a rest ih =>
      exact ih (m.applyAction a) (quarter_applyAction_ge1 m a h1)
        (quarter_applyAction_le4 m a h4)

theorem quarter_applyAction_of_eq4 (m : HockeyMatch) (a : Action)
    (h : m.current_quarter_ = 4) :
    (m.applyAction a).current_quarter_ = 4 := by
  by_cases hq : a = Action.nextQ
  · subst hq
    show (m.nextQuarter.1).current_quarter_ = 4
    rw [quarter_nextQuarter, if_neg (by simp [TOTAL_QUARTERS]; omega)]
    exact h
  · rw [quarter_applyAction_ne m a hq]
    exact h

theorem quarter_run_of_eq4 (m : HockeyMatch) (acts : List Action)
    (h : m.current_quarter_ = 4) :
    (m.run acts).current_quarter_ = 4 := by
  induction acts generalizing m with
  | nil => exact h
  | cons a rest ih => exact ih (m.applyAction a) (quarter_applyAction_of_eq4 m a h)

theorem log_applyAction (m : HockeyMatch) (a : Action) :
    ∃ tl, (m.applyAction a).event_log_ = m.event_log_ ++ tl := by
  cases a with
  | goalHome => exact ⟨_, rfl⟩
  | goalAway => exact ⟨_, rfl⟩
  | cardHome ty => exact ⟨_, rfl⟩
  | cardAway ty => exact ⟨_, rfl⟩
  | pcHome => exact ⟨_, rfl⟩
  | pcAway => exact ⟨_, rfl⟩
  | nextQ =>
      show ∃ tl, (m.nextQuarter.1).event_log_ = m.event_log_ ++ tl
      by_cases hgt : TOTAL_QUARTERS < m.current_quarter_
      · rw [nextQuarter_of_gt m hgt]
        exact ⟨[], (List.append_nil _).symm⟩
      · by_cases hlt : m.current_quarter_ < TOTAL_QUARTERS
        · rw [nextQuarter_of_lt m hlt]
          exact ⟨_, rfl⟩
        · have h4 : m.current_quarter_ = 4 := by
            simp [TOTAL_QUARTERS] at hgt hlt
            omega
          rw [nextQuarter_of_eq4 m h4]
          exact ⟨_, rfl⟩

theorem log_run (m : HockeyMatch) (acts : List Action) :
    ∃ tl, (m.run acts).event_log_ = m.event_log_ ++ tl := by
  induction acts generalizing m with
  | nil => exact ⟨[], (List.append_nil _).symm⟩
  | cons a rest ih =>
      obtain ⟨tl1, h1⟩ := log_applyAction m a
      obtain ⟨tl2, h2⟩ := ih (m.applyAction a)
      refine ⟨tl1 ++ tl2, ?_⟩
      show ((m.applyAction a).run rest).event_log_ = m.event_log_ ++ (tl1 ++ tl2)
      rw [h2, h1, List.append_assoc]

theorem teamOf_goalFor_same (m : HockeyMatch) (s : Side) :
    (m.goalFor s).teamOf s = (m.teamOf s).scoreGoal := by
  cases s <;> rfl

theorem teamOf_goalFor_other (m : HockeyMatch) (s : Side) :
    (m.goalFor s).teamOf (otherSide s) = m.teamOf (otherSide s) := by
  cases s <;> rfl

theorem quarter_goalFor (m : HockeyMatch) (s : Side) :
    (m.goalFor s).current_quarter_ = m.current_quarter_ := by
  cases s <;> rfl

theorem events_goalFor (m : HockeyMatch) (s : Side) :
    (m.goalFor s).event_log_ =
      m.event_log_ ++ [⟨m.current_quarter_, (m.teamOf s).name ++ " goal!"⟩] := by
  cases s <;> rfl

theorem goals_scoreGoal (t : Team) : t.scoreGoal.goals = t.goals + 1 := rfl

theorem name_scoreGoal (t : Team) : t.scoreGoal.name = t.name := rfl

theorem countersLe_refl (t : Team) : countersLe t t :=
  ⟨Nat.le_refl _, Nat.le_refl _, Nat.le_refl _, Nat.le_refl _, Nat.le_refl _⟩

theorem countersLe_scoreGoal (t : Team) : countersLe t t.scoreGoal :=
  ⟨Nat.le_succ _, Nat.le_refl _, Nat.le_refl _, Nat.le_refl _, Nat.le_refl _⟩

theorem countersLe_awardPenaltyCorner (t : Team) : countersLe t t.awardPenaltyCorner :=
  ⟨Nat.le_refl _, Nat.le_refl _, Nat.le_refl _, Nat.le_refl _, Nat.le_succ _⟩

theorem countersLe_receiveCard (t : Team) (ty : CardType) :
    countersLe t (t.receiveCard ty) := by
  cases ty <;>
    exact ⟨by simp [Team.receiveCard], by simp [Team.receiveCard],
      by simp [Team.receiveCard], by simp [Team.receiveCard], by simp [Team.receiveCard]⟩

/-! The claims. -/

/-- C1, counterexample: from a freshly constructed match, the fourth and
fifth `nextQuarter` calls both return false as claimed, but the fifth call
does append a new event: the event log grows from 8 to 9 entries, so the
claim "a fifth call returns false and appends no new event" is false on the
code. -/
theorem C1_counterexample :
    (iterNextQuarter (mkHockeyMatch "Home" "Away") 4).nextQuarter.2 = false ∧
    (iterNextQuarter (mkHockeyMatch "Home" "Away") 4).events.length = 8 ∧
    (iterNextQuarter (mkHockeyMatch "Home" "Away") 5).events.length = 9 ∧
    ¬ ((iterNextQuarter (mkHockeyMatch "Home" "Away") 5).events =
        (iterNextQuarter (mkHockeyMatch "Home" "Away") 4).events) := by
  decide

/-- C1, amended: from a freshly constructed match, four `nextQuarter` calls
take `quarter()` through 1, 2, 3, 4, returning true, true, true, false; a
fifth call also returns false, leaves the quarter at 4, but appends one more
"=== End of Q4 ===" event to the log (the quarter value never exceeds 4, so
the over-the-limit no-op guard never fires). -/
theorem C1_quarter_progression :
    (mkHockeyMatch "Home" "Away").quarter = 1 ∧
    (iterNextQuarter (mkHockeyMatch "Home" "Away") 1).quarter = 2 ∧
    (iterNextQuarter (mkHockeyMatch "Home" "Away") 2).quarter = 3 ∧
    (iterNextQuarter (mkHockeyMatch "Home" "Away") 3).quarter = 4 ∧
    (iterNextQuarter (mkHockeyMatch "Home" "Away") 4).quarter = 4 ∧
    (iterNextQuarter (mkHockeyMatch "Home" "Away") 5).quarter = 4 ∧
    (iterNextQuarter (mkHockeyMatch "Home" "Away") 0).nextQuarter.2 = true ∧
    (iterNextQuarter (mkHockeyMatch "Home" "Away") 1).nextQuarter.2 = true ∧
    (iterNextQuarter (mkHockeyMatch "Home" "Away") 2).nextQuarter.2 = true ∧
    (iterNextQuarter (mkHockeyMatch "Home" "Away") 3).nextQuarter.2 = false ∧
    (iterNextQuarter (mkHockeyMatch "Home" "Away") 4).nextQuarter.2 = false ∧
    (iterNextQuarter (mkHockeyMatch "Home" "Away") 5).events =
      (iterNextQuarter (mkHockeyMatch "Home" "Away") 4).events ++
        [⟨4, "=== End of Q4 ==="⟩] := by
  decide

/-- C2, counterexample: `receiveCard` with the out-of-range kind `Count` on a
fresh team returns normally with the team unchanged (the C++ function is
`noexcept` and its switch hits a bare `break`), whereas the spec-side
contract `receiveCardSpec` treats that call as an invalid-argument fault; so
the claim that the operation "fails fast rather than returning normally" is
false on the code. -/
theorem C2_counterexample :
    (mkTeam "T").receiveCard CardType.Count = mkTeam "T" ∧
    receiveCardSpec (mkTeam "T") CardType.Count = none := by
  decide

/-- C2, amended: a call of `receiveCard` with a card kind outside the set
Green, Yellow, Red is a silent no-op — it returns normally and leaves every
counter unchanged; on the three valid kinds the code agrees with the
spec-side contract, so the fault the spec demands can never be observed,
whether or not the call goes through the Match orchestrator. -/
theorem C2_receiveCard_silent :
    (∀ t : Team, t.receiveCard CardType.Count = t) ∧
    (∀ (t : Team) (ty : CardType), ty ≠ CardType.Count →
      receiveCardSpec t ty = some (t.receiveCard ty)) := by
  refine ⟨fun t => rfl, fun t ty h => ?_⟩
  cases ty <;> first
    | rfl
    | exact absurd rfl h

/-- C2, witness for the amended theorem at a concrete valid kind. -/
theorem C2_witness :
    CardType.Green ≠ CardType.Count ∧
    receiveCardSpec (mkTeam "W") CardType.Green =
      some ((mkTeam "W").receiveCard CardType.Green) :=
  ⟨by decide, C2_receiveCard_silent.2 (mkTeam "W") CardType.Green (by decide)⟩

/-- C7: `statsLine` renders the counters in the fixed order green, yellow,
red, penalty corners with the fixed suffix tokens G, Y, R, PC — independent
of the team name and goal count — and on green=2, yellow=1, red=0,
penaltyCorners=3 produces exactly "2G 1Y 0R 3PC"; it is a pure function of
the team state, hence deterministic. -/
theorem C7_statsLine_format :
    (∀ (name : String) (goals : Nat),
      Team.statsLine ⟨name, goals, 2, 1, 0, 3⟩ = "2G 1Y 0R 3PC") ∧
    (∀ t : Team, t.statsLine =
      toString t.greenCards ++ "G " ++ toString t.yellowCards ++ "Y " ++
        toString t.redCards ++ "R " ++ toString t.penaltyCorners ++ "PC") := by
  constructor
  · intro name goals
    simp only [Team.statsLine]
    rfl
  · intro t
    rfl

/-- C9: a `MatchEvent` constructed with quarter q and description d holds
exactly those two values (the class has no mutating member, and the embedding
defines no operation that alters an existing event), and its rendering is
exactly "Q" ++ q ++ " - " ++ d. -/
theorem C9_matchEvent_render (q : Nat) (d : String) :
    (MatchEvent.mk q d).quarter_ = q ∧
    (MatchEvent.mk q d).description_ = d ∧
    MatchEvent.toString ⟨q, d⟩ = "Q" ++ toString q ++ " - " ++ d :=
  ⟨rfl, rfl, rfl⟩

/-- C3: in every state with quarter between 1 and 4, `nextQuarter` first
appends the "End of Q current" event; below quarter 4 it then increments the
quarter by exactly 1, appends the "Start of Q new" event and returns true; at
quarter 4 it does not increment, returns false, and no later sequence of
public actions ever advances the quarter again. -/
theorem C3_nextQuarter_transition (m : HockeyMatch)
    (h1 : 1 ≤ m.quarter) (h4 : m.quarter ≤ 4) :
    (∃ tl, (m.nextQuarter.1).events = m.events ++
      (⟨m.quarter, "=== End of Q" ++ toString m.quarter ++ " ==="⟩ :: tl)) ∧
    (m.quarter < 4 →
      (m.nextQuarter.1).quarter = m.quarter + 1 ∧
      (m.nextQuarter.1).events = m.events ++
        [⟨m.quarter, "=== End of Q" ++ toString m.quarter ++ " ==="⟩,
         ⟨m.quarter + 1, "=== Start of Q" ++ toString (m.quarter + 1) ++ " ==="⟩] ∧
      m.nextQuarter.2 = true) ∧
    (m.quarter = 4 →
      (m.nextQuarter.1).quarter = 4 ∧
      m.nextQuarter.2 = false ∧
      (m.nextQuarter.1).events = m.events ++ [⟨4, "=== End of Q4 ==="⟩] ∧
      ∀ acts : List Action, ((m.nextQuarter.1).run acts).quarter = 4) := by
  refine ⟨?_, ?_, ?_⟩
  · by_cases hlt : m.current_quarter_ < 4
    · rw [show m.nextQuarter = _ from nextQuarter_of_lt m hlt]
      exact ⟨_, rfl⟩
    · have he : m.current_quarter_ = 4 := by
        have h4c : m.current_quarter_ ≤ 4 := h4
        omega
      rw [show m.nextQuarter = _ from nextQuarter_of_eq4 m he]
      refine ⟨[], ?_⟩
      show m.event_log_ ++ [⟨4, "=== End of Q4 ==="⟩] = m.event_log_ ++ _
      rw [show m.quarter = 4 from he]
      rfl
  · intro hlt
    rw [show m.nextQuarter = _ from nextQuarter_of_lt m hlt]
    exact ⟨rfl, rfl, rfl⟩
  · intro he
    rw [show m.nextQuarter = _ from nextQuarter_of_eq4 m he]
    refine ⟨rfl, rfl, rfl, fun acts => ?_⟩
    exact quarter_run_of_eq4 _ acts rfl

/-- C3, witness: the theorem applied to a freshly constructed match, which is
in quarter 1; the call advances to quarter 2. -/
theorem C3_witness :
    1 ≤ (mkHockeyMatch "H" "A").quarter ∧
    (mkHockeyMatch "H" "A").quarter ≤ 4 ∧
    ((mkHockeyMatch "H" "A").nextQuarter.1).quarter = (mkHockeyMatch "H" "A").quarter + 1 :=
  ⟨by decide, by decide,
    ((C3_nextQuarter_transition (mkHockeyMatch "H" "A") (by decide) (by decide)).2.1
      (by decide)).1⟩

/-- C4: the event log is append-only across any sequence of public actions
(events are returned in insertion order, never reordered or removed), and
every appended event is tagged with the value of `quarter()` at the moment of
its append: the goal, card and penalty-corner events and the end-of-quarter
marker carry the unchanged current quarter, while the start-of-quarter marker
is appended after the increment and carries the incremented quarter. -/
theorem C4_event_log_ordering :
    (∀ (m : HockeyMatch) (acts : List Action),
      ∃ tl, (m.run acts).events = m.events ++ tl) ∧
    (∀ (m : HockeyMatch) (s : Side),
      (m.goalFor s).events =
        m.events ++ [⟨m.quarter, (m.teamOf s).name ++ " goal!"⟩] ∧
      (m.goalFor s).quarter = m.quarter) ∧
    (∀ (m : HockeyMatch) (s : Side) (ty : CardType),
      (m.cardFor s ty).events =
        m.events ++ [⟨m.quarter, cardName ty ++ " card - " ++ (m.teamOf s).name⟩] ∧
      (m.cardFor s ty).quarter = m.quarter) ∧
    (∀ (m : HockeyMatch) (s : Side),
      (m.penaltyCornerFor s).events =
        m.events ++ [⟨m.quarter, "Penalty corner - " ++ (m.teamOf s).name⟩] ∧
      (m.penaltyCornerFor s).quarter = m.quarter) ∧
    (∀ m : HockeyMatch, m.quarter ≤ TOTAL_QUARTERS →
      (m.nextQuarter.1).events = m.events ++
        (⟨m.quarter, "=== End of Q" ++ toString m.quarter ++ " ==="⟩ ::
          (if m.quarter < TOTAL_QUARTERS
            then [⟨m.quarter + 1, "=== Start of Q" ++ toString (m.quarter + 1) ++ " ==="⟩]
            else [])) ∧
      (m.nextQuarter.1).quarter =
        (if m.quarter < TOTAL_QUARTERS then m.quarter + 1 else m.quarter)) := by
  refine ⟨fun m acts => log_run m acts, fun m s => ⟨by cases s <;> rfl, by cases s <;> rfl⟩,
    fun m s ty => ⟨by cases s <;> rfl, by cases s <;> rfl⟩,
    fun m s => ⟨by cases s <;> rfl, by cases s <;> rfl⟩, fun m h => ?_⟩
  by_cases hlt : m.current_quarter_ < TOTAL_QUARTERS
  · rw [show m.nextQuarter = _ from nextQuarter_of_lt m hlt]
    have hlt' : m.quarter < TOTAL_QUARTERS := hlt
    rw [if_pos hlt', if_pos hlt']
    exact ⟨rfl, rfl⟩
  · have he : m.current_quarter_ = 4 := by
      have hle : m.current_quarter_ ≤ TOTAL_QUARTERS := h
      simp [TOTAL_QUARTERS] at hle hlt
      omega
    rw [show m.nextQuarter = _ from nextQuarter_of_eq4 m he]
    have hlt' : ¬ m.quarter < TOTAL_QUARTERS := hlt
    rw [if_neg hlt', if_neg hlt']
    refine ⟨?_, ?_⟩
    · show m.event_log_ ++ [⟨4, "=== End of Q4 ==="⟩] = m.event_log_ ++ _
      rw [show m.quarter = 4 from he]
      rfl
    · exact he.symm

/-- C4, witness: the nextQuarter conjunct applied to a freshly constructed
match (quarter 1, which is at most 4). -/
theorem C4_witness :
    (mkHockeyMatch "H" "A").quarter ≤ TOTAL_QUARTERS ∧
    ((mkHockeyMatch "H" "A").nextQuarter.1).quarter =
      (if (mkHockeyMatch "H" "A").quarter < TOTAL_QUARTERS
        then (mkHockeyMatch "H" "A").quarter + 1
        else (mkHockeyMatch "H" "A").quarter) :=
  ⟨by decide,
    (C4_event_log_ordering.2.2.2.2 (mkHockeyMatch "H" "A") (by decide)).2⟩

/-- C5: for either side, a sequence of n goal actions for that side adds
exactly n to that team's goal count, leaves the other team and the quarter
unchanged, and appends exactly the n events "<team name> goal!" tagged with
the current quarter — and nothing else — to the log. -/
theorem C5_goal_sequences (m : HockeyMatch) (s : Side) (n : Nat) :
    ((iterGoal m s n).teamOf s).goals = (m.teamOf s).goals + n ∧
    ((iterGoal m s n).teamOf s).name = (m.teamOf s).name ∧
    (iterGoal m s n).teamOf (otherSide s) = m.teamOf (otherSide s) ∧
    (iterGoal m s n).quarter = m.quarter ∧
    (iterGoal m s n).events = m.events ++
      List.replicate n ⟨m.quarter, (m.teamOf s).name ++ " goal!"⟩ := by
  induction n with
  | zero => exact ⟨rfl, rfl, rfl, rfl, (List.append_nil _).symm⟩
  | succ n ih =>
      obtain ⟨hg, hn, ho, hq, hl⟩ := ih
      refine ⟨?_, ?_, ?_, ?_, ?_⟩
      · show (((iterGoal m s n).goalFor s).teamOf s).goals = _
        rw [teamOf_goalFor_same, goals_scoreGoal, hg]
        omega
      · show (((iterGoal m s n).goalFor s).teamOf s).name = _
        rw [teamOf_goalFor_same, name_scoreGoal, hn]
      · show ((iterGoal m s n).goalFor s).teamOf (otherSide s) = _
        rw [teamOf_goalFor_other, ho]
      · show ((iterGoal m s n).goalFor s).current_quarter_ = _
        rw [quarter_goalFor]
        exact hq
      · show ((iterGoal m s n).goalFor s).event_log_ = _
        rw [events_goalFor]
        have hq' : (iterGoal m s n).current_quarter_ = m.quarter := hq
        have hn' : ((iterGoal m s n).teamOf s).name = (m.teamOf s).name := hn
        rw [hq', hn']
        have hl' : (iterGoal m s n).event_log_ = m.events ++
            List.replicate n ⟨m.quarter, (m.teamOf s).name ++ " goal!"⟩ := hl
        rw [hl', List.append_assoc, ← List.replicate_succ']

/-- C6: a card action for a given side and a valid kind increments exactly
the matching counter on exactly the named team — the other two card counters,
goals and penalty corners of that team, the whole other team, and the quarter
are unchanged — appends the event "<CardKind> card - <team name>", and on a
fresh team one call yields count 1 for that kind and 0 for the others. -/
theorem C6_cardFor_frame (m : HockeyMatch) (s : Side) (k : CardType)
    (h : k ≠ CardType.Count) :
    (∀ k2 : CardType, cardCountOf ((m.cardFor s k).teamOf s) k2 =
      cardCountOf (m.teamOf s) k2 + (if k2 = k then 1 else 0)) ∧
    ((m.cardFor s k).teamOf s).goals = (m.teamOf s).goals ∧
    ((m.cardFor s k).teamOf s).penaltyCorners = (m.teamOf s).penaltyCorners ∧
    ((m.cardFor s k).teamOf s).name = (m.teamOf s).name ∧
    (m.cardFor s k).teamOf (otherSide s) = m.teamOf (otherSide s) ∧
    (m.cardFor s k).quarter = m.quarter ∧
    (m.cardFor s k).events = m.events ++
      [⟨m.quarter, cardName k ++ " card - " ++ (m.teamOf s).name⟩] ∧
    (∀ name : String, cardCountOf ((mkTeam name).receiveCard k) k = 1 ∧
      ∀ k2 : CardType, k2 ≠ k → cardCountOf ((mkTeam name).receiveCard k) k2 = 0) := by
  cases s <;> cases k <;>
    first
      | exact absurd rfl h
      | exact ⟨fun k2 => by cases k2 <;> rfl, rfl, rfl, rfl, rfl, rfl, rfl,
          fun name => ⟨rfl, fun k2 hk2 => by
            cases k2 <;> first
              | rfl
              | exact absurd rfl hk2⟩⟩

/-- C6, witness: a yellow card for the home side of a fresh match takes the
home yellow counter from 0 to 1. -/
theorem C6_witness :
    CardType.Yellow ≠ CardType.Count ∧
    cardCountOf (((mkHockeyMatch "H" "A").cardFor Side.home CardType.Yellow).teamOf
        Side.home) CardType.Yellow =
      cardCountOf ((mkHockeyMatch "H" "A").teamOf Side.home) CardType.Yellow +
        (if CardType.Yellow = CardType.Yellow then 1 else 0) :=
  ⟨by decide,
    (C6_cardFor_frame (mkHockeyMatch "H" "A") Side.home CardType.Yellow (by decide)).1
      CardType.Yellow⟩

/-- C8: every counter of a freshly constructed team is zero and no public
action ever decreases any counter of either team; the quarter starts at 1, is
non-decreasing under every action, increases by exactly 1 when `nextQuarter`
reports success (returns true), and by 0 on a failed `nextQuarter` and on
every other action. -/
theorem C8_monotone_counters :
    (∀ name : String, (mkTeam name).goals = 0 ∧ (mkTeam name).greenCards = 0 ∧
      (mkTeam name).yellowCards = 0 ∧ (mkTeam name).redCards = 0 ∧
      (mkTeam name).penaltyCorners = 0) ∧
    (∀ home_name away_name : String, (mkHockeyMatch home_name away_name).quarter = 1) ∧
    (∀ (m : HockeyMatch) (a : Action),
      countersLe m.home_team_ ((m.applyAction a).home_team_) ∧
      countersLe m.away_team_ ((m.applyAction a).away_team_)) ∧
    (∀ (m : HockeyMatch) (a : Action), m.quarter ≤ (m.applyAction a).quarter) ∧
    (∀ m : HockeyMatch, m.nextQuarter.2 = true →
      (m.nextQuarter.1).quarter = m.quarter + 1) ∧
    (∀ m : HockeyMatch, m.nextQuarter.2 = false →
      (m.nextQuarter.1).quarter = m.quarter) ∧
    (∀ (m : HockeyMatch) (a : Action), a ≠ Action.nextQ →
      (m.applyAction a).quarter = m.quarter) := by
  refine ⟨fun name => ⟨rfl, rfl, rfl, rfl, rfl⟩,
    fun home_name away_name => rfl, fun m a => ?_, fun m a => quarter_applyAction_mono m a,
    fun m hm => ?_, fun m hm => ?_, fun m a ha => quarter_applyAction_ne m a ha⟩
  · cases a with
    | goalHome => exact ⟨countersLe_scoreGoal _, countersLe_refl _⟩
    | goalAway => exact ⟨countersLe_refl _, countersLe_scoreGoal _⟩
    | cardHome ty => exact ⟨countersLe_receiveCard _ ty, countersLe_refl _⟩
    | cardAway ty => exact ⟨countersLe_refl _, countersLe_receiveCard _ ty⟩
    | pcHome => exact ⟨countersLe_awardPenaltyCorner _, countersLe_refl _⟩
    | pcAway => exact ⟨countersLe_refl _, countersLe_awardPenaltyCorner _⟩
    | nextQ =>
        obtain ⟨hh, ha⟩ := teams_nextQuarter m
        show countersLe m.home_team_ ((m.nextQuarter.1).home_team_) ∧
          countersLe m.away_team_ ((m.nextQuarter.1).away_team_)
        rw [hh, ha]
        exact ⟨countersLe_refl _, countersLe_refl _⟩
  · have hlt : m.current_quarter_ < TOTAL_QUARTERS := (snd_nextQuarter m).mp hm
    show (m.nextQuarter.1).current_quarter_ = m.current_quarter_ + 1
    rw [quarter_nextQuarter, if_pos hlt]
  · have hnlt : ¬ m.current_quarter_ < TOTAL_QUARTERS := by
      intro hc
      rw [(snd_nextQuarter m).mpr hc] at hm
      exact Bool.noConfusion hm
    show (m.nextQuarter.1).current_quarter_ = m.current_quarter_
    rw [quarter_nextQuarter, if_neg hnlt]

/-- C8, witness: a goal action is not a quarter advance and leaves the
quarter of a fresh match unchanged. -/
theorem C8_witness :
    Action.goalHome ≠ Action.nextQ ∧
    ((mkHockeyMatch "H" "A").applyAction Action.goalHome).quarter =
      (mkHockeyMatch "H" "A").quarter :=
  ⟨by decide,
    C8_monotone_counters.2.2.2.2.2.2 (mkHockeyMatch "H" "A") Action.goalHome (by decide)⟩

/-- C10: in every match state reachable from construction by public actions,
`quarter()` lies between 1 and 4 — it never exceeds `TOTAL_QUARTERS`, so the
early-return guard of `nextQuarter` is unreachable — and every `nextQuarter`
call made while the quarter is 4 appends another "=== End of Q4 ===" event
and returns false. -/
theorem C10_quarter_bounded (home_name away_name : String) (acts : List Action) :
    (1 ≤ ((mkHockeyMatch home_name away_name).run acts).quarter ∧
      ((mkHockeyMatch home_name away_name).run acts).quarter ≤ TOTAL_QUARTERS) ∧
    ¬ (TOTAL_QUARTERS < ((mkHockeyMatch home_name away_name).run acts).quarter) ∧
    (((mkHockeyMatch home_name away_name).run acts).quarter = 4 →
      (((mkHockeyMatch home_name away_name).run acts).nextQuarter.1).events =
        ((mkHockeyMatch home_name away_name).run acts).events ++
          [⟨4, "=== End of Q4 ==="⟩] ∧
      ((mkHockeyMatch home_name away_name).run acts).nextQuarter.2 = false) := by
  have hb := quarter_run_bounds (mkHockeyMatch home_name away_name) acts
    (Nat.le_refl 1) (by show (1:Nat) ≤ TOTAL_QUARTERS; decide)
  refine ⟨hb, Nat.not_lt.mpr hb.2, fun he => ?_⟩
  rw [show ((mkHockeyMatch home_name away_name).run acts).nextQuarter = _ from
    nextQuarter_of_eq4 _ he]
  exact ⟨rfl, rfl⟩

/-- C10, witness: after three quarter advances the match is in quarter 4 and
a further `nextQuarter` call reports match over. -/
theorem C10_witness :
    ((mkHockeyMatch "H" "A").run [Action.nextQ, Action.nextQ, Action.nextQ]).quarter = 4 ∧
    ((mkHockeyMatch "H" "A").run
      [Action.nextQ, Action.nextQ, Action.nextQ]).nextQuarter.2 = false :=
  ⟨by decide,
    ((C10_quarter_bounded "H" "A" [Action.nextQ, Action.nextQ, Action.nextQ]).2.2
      (by decide)).2⟩

end FieldHockey
